import Mathlib

/-!
Shallow embedding of src/lib/Emitter.js (the remit message emitter).

The embedding models the three functions the claims are about:

* `generateOptions` models `Emitter._generateOptions` (lines 170-187):
  merging of incoming options over stored defaults, with normalization of
  the `delay` field (duration string via the `ms` collaborator, valid
  `Date` rerouted to `schedule`, anything else passed through).
* `setupDemitQueue` models `Emitter._setupDemitQueue` (lines 189-241):
  the delay resolver, including the two input guards, group key and
  expiration computation, queue naming, queue declaration parameters, and
  the tolerated x-expires conflict on the scheduling path.
* `sendCore` models the body of `Emitter._send` (lines 63-168) after
  option parsing: priority validation and assignment, payload
  serialization fallback to the null representation, the demit-queue
  resolution, pooled worker acquisition, the publish / sendToQueue branch,
  and release on success or destroy on a thrown failure.

JavaScript numbers appearing in option fields are modelled by `JNum`
(either NaN or an integer; every value these code paths produce is an
integer number of milliseconds).  The option fields `delay` and
`schedule` are modelled by the value families `DVal` and `SVal` that the
normalized options can hold; key absence is `Option.none`, while a key
present with value `undefined` is `some .dundefined` / `some .sundefined`
(`opts.x` evaluates to `undefined` in both cases, which `delayVal` /
`schedVal` implement).

External collaborators are modelled by oracles:

* `msFn : String -> Option Int` models the `ms` duration parser
  (`undefined` on an unparsable string, hence `none`).
* `assertOutcome : Option String` models the outcome of
  `worker.assertQueue` inside `_setupDemitQueue`: `none` when the
  declaration succeeds, `some msg` when it throws an error whose
  `message` is `msg`.
* `routeOutcome : Option String` models the outcome of the synchronous
  `worker.sendToQueue` / `worker.publish` call inside `_send`.
* `listenerThrows : Bool` models whether `this._emitter.emit('sent', .)`
  throws: eventemitter3 invokes registered handlers synchronously, so a
  throwing listener propagates into the `catch` block of `_send`.

Pooled-resource activity is recorded as a list of `(handle, action)`
pairs: the handle acquired by `_setupDemitQueue` is numbered 0 and the
handle acquired by `_send` is numbered 1 (the two acquisitions are
distinct resources).  Broker interactions are recorded as a list of
`BrokerOp` in program order.  Tracing (opentracing spans) and the stack
capture are not observable by any claim and are omitted.
-/

/-- A JavaScript number as it occurs in these code paths: NaN or an
integer (all finite values produced here are integer milliseconds). -/
inductive JNum where
  | nan : JNum
  | fin : Int → JNum
deriving DecidableEq

/-- JS subtraction: NaN is absorbing. -/
def JNum.sub : JNum → JNum → JNum
  | .fin a, .fin b => .fin (a - b)
  | _, _ => .nan

/-- JS multiplication by an integer constant: NaN is absorbing. -/
def JNum.mul : JNum → Int → JNum
  | .fin a, k => .fin (a * k)
  | .nan, _ => .nan

/-- JS addition of an integer constant: NaN is absorbing. -/
def JNum.add : JNum → Int → JNum
  | .fin a, k => .fin (a + k)
  | .nan, _ => .nan

/-- JS `<` as a Bool: any comparison against NaN is false. -/
def JNum.ltb : JNum → JNum → Bool
  | .fin a, .fin b => a < b
  | _, _ => false

/-- The decimal digit character for `d` (code point 48 + d). -/
def digitChar (d : Nat) : Char := Char.ofNat (48 + d)

/-- Fuel-driven decimal digit list accumulator: most significant digit
first, mirroring how JS renders a nonnegative integer. -/
def natDigitsAux : Nat → Nat → List Char → List Char
  | 0, _, acc => acc
  | fuel + 1, n, acc =>
    if n < 10 then digitChar n :: acc
    else natDigitsAux fuel (n / 10) (digitChar (n % 10) :: acc)

/-- Decimal digit list of a natural number. -/
def natDigits (n : Nat) : List Char := natDigitsAux (n + 1) n []

/-- Decimal character list of an integer, with a leading minus sign
(code point 45) for negative values, as JS stringification renders it. -/
def intDigits : Int → List Char
  | .ofNat m => natDigits m
  | .negSucc m => Char.ofNat 45 :: natDigits (m + 1)

/-- Decimal string of an integer, as JS renders an integer number. -/
def intDecStr (n : Int) : String := String.mk (intDigits n)

/-- JS stringification of a number: `NaN` renders as "NaN", an integer
as its decimal representation. -/
def JNum.render : JNum → String
  | .nan => "NaN"
  | .fin n => intDecStr n

/-- Values the normalized option field `delay` can hold.  A valid `Date`
never reaches the normalized `delay` slot: `_generateOptions` reroutes a
valid Date supplied as `delay` to `schedule` and stores `null` as the
delay (an invalid Date falls into the passthrough branch, hence
`dinvalid`). -/
inductive DVal where
  | dnull : DVal
  | dundefined : DVal
  | dnum : Int → DVal
  | dnan : DVal
  | dinvalid : DVal
deriving DecidableEq

/-- JS truthiness of a delay value: null, undefined, NaN and 0 are
falsy; a nonzero number is truthy; a Date object (even invalid) is
truthy. -/
def DVal.truthy : DVal → Bool
  | .dnull => false
  | .dundefined => false
  | .dnum n => n != 0
  | .dnan => false
  | .dinvalid => true

/-- JS global `isNaN` on a delay value: `Number(null)` is 0 (not NaN),
`Number(undefined)` is NaN, an invalid Date coerces to NaN. -/
def DVal.isNaNJS : DVal → Bool
  | .dnull => false
  | .dundefined => true
  | .dnum _ => false
  | .dnan => true
  | .dinvalid => true

/-- JS numeric coercion of a delay value. -/
def DVal.toNum : DVal → JNum
  | .dnull => .fin 0
  | .dundefined => .nan
  | .dnum n => .fin n
  | .dnan => .nan
  | .dinvalid => .nan

/-- JS template-string rendering of a delay value, as used for the group
key segment of the queue name. -/
def DVal.render : DVal → String
  | .dnull => "null"
  | .dundefined => "undefined"
  | .dnum n => intDecStr n
  | .dnan => "NaN"
  | .dinvalid => "Invalid Date"

/-- Values the option field `schedule` can hold: absent-like values, a
raw number, NaN, a valid `Date` carrying its epoch-millisecond
timestamp, or an invalid `Date`. -/
inductive SVal where
  | snull : SVal
  | sundefined : SVal
  | snum : Int → SVal
  | snan : SVal
  | sdate : Int → SVal
  | sinvalid : SVal
deriving DecidableEq

/-- JS truthiness of a schedule value: Date objects are truthy even when
invalid. -/
def SVal.truthy : SVal → Bool
  | .snull => false
  | .sundefined => false
  | .snum n => n != 0
  | .snan => false
  | .sdate _ => true
  | .sinvalid => true

/-- `instanceof Date` for a schedule value. -/
def SVal.isDate : SVal → Bool
  | .sdate _ => true
  | .sinvalid => true
  | _ => false

/-- Whether `schedule.toString()` equals the string "Invalid Date". -/
def SVal.isInvalidDateStr : SVal → Bool
  | .sinvalid => true
  | _ => false

/-- JS numeric coercion `+schedule`: a valid Date yields its timestamp,
an invalid Date yields NaN. -/
def SVal.toNum : SVal → JNum
  | .snull => .fin 0
  | .sundefined => .nan
  | .snum n => .fin n
  | .snan => .nan
  | .sdate t => .fin t
  | .sinvalid => .nan

/-- Values an incoming (not yet normalized) `delay` option can hold in
`_generateOptions`: additionally a duration string or a valid Date. -/
inductive DInput where
  | inull : DInput
  | iundefined : DInput
  | inum : Int → DInput
  | inan : DInput
  | istr : String → DInput
  | idate : Int → DInput
  | iinvalid : DInput
deriving DecidableEq

/-- Normalized emission options, as produced by `_generateOptions` and
consumed by `_send` / `_setupDemitQueue`.  `none` in an optional field
means the key is absent from the object. -/
structure NOpts where
  event : String
  priority : Option Int := none
  delay : Option DVal := none
  schedule : Option SVal := none
deriving DecidableEq

/-- Incoming raw options for `_generateOptions`: each `none` field means
the key is absent from the passed object. -/
structure RawOpts where
  event : Option String := none
  priority : Option Int := none
  delay : Option DInput := none
  schedule : Option SVal := none
deriving DecidableEq

/-- `opts.delay` as evaluated by `_setupDemitQueue`: an absent key reads
as `undefined`. -/
def delayVal (p : NOpts) : DVal := p.delay.getD .dundefined

/-- `opts.schedule` as evaluated by `_setupDemitQueue`: an absent key
reads as `undefined`. -/
def schedVal (p : NOpts) : SVal := p.schedule.getD .sundefined

/-- `Emitter._generateOptions` (lines 170-187).  When the incoming
object has a `delay` key, `parsedOpts` receives both a `delay` and a
`schedule` entry: a duration string goes through the `ms` collaborator
(`msFn`, `none` for unparsable) with `schedule` set to null, a valid
Date becomes the schedule with `delay` set to null, and anything else is
passed through as the delay with `schedule` set to null.  The result is
`Object.assign({}, defaults, opts, parsedOpts)`, so for each key the
rightmost object in which the key is present wins. -/
def generateOptions (defaults : NOpts) (msFn : String → Option Int) (opts : RawOpts) : NOpts :=
  let parsed : Option (DVal × SVal) := opts.delay.map fun d =>
    match d with
    | .istr s => ((msFn s).elim DVal.dundefined DVal.dnum, SVal.snull)
    | .idate t => (DVal.dnull, SVal.sdate t)
    | .inull => (DVal.dnull, SVal.snull)
    | .iundefined => (DVal.dundefined, SVal.snull)
    | .inum n => (DVal.dnum n, SVal.snull)
    | .inan => (DVal.dnan, SVal.snull)
    | .iinvalid => (DVal.dinvalid, SVal.snull)
  { event := opts.event.getD defaults.event
    priority := opts.priority <|> defaults.priority
    delay := (parsed.map Prod.fst) <|> defaults.delay
    schedule := (parsed.map Prod.snd) <|> opts.schedule <|> defaults.schedule }

/-- Whether the `delay` field of a normalized options object holds a
value other than null or undefined. -/
def delaySet : Option DVal → Bool
  | none => false
  | some .dnull => false
  | some .dundefined => false
  | some _ => true

/-- Whether the `schedule` field of a normalized options object holds a
value other than null or undefined. -/
def schedSet : Option SVal → Bool
  | none => false
  | some .snull => false
  | some .sundefined => false
  | some _ => true

/-- The mutual-exclusivity property of normalized options: at most one
of `delay` and `schedule` is non-null. -/
def mutuallyExclusive (p : NOpts) : Bool :=
  !(delaySet p.delay && schedSet p.schedule)

/-- Declaration parameters passed to `worker.assertQueue`
(lines 208-221). -/
structure QueueOpts where
  exclusive : Bool
  durable : Bool
  autoDelete : Bool
  deadLetterExchange : String
  deadLetterRoutingKey : String
  messageTtl : Option JNum := none
  expires : Option JNum := none
deriving DecidableEq

/-- The outgoing message object built by `_send` (lines 71-89 and
126-131).  The headers `trace` and `context` come from collaborators
that no claim observes and are omitted. -/
structure Envelope where
  mandatory : Bool := false
  messageId : String
  appId : String
  timestamp : Int
  persistent : Bool := true
  priority : Option Int := none
  headersScheduled : Option JNum := none
  headersDelay : Option DVal := none
  expiration : Option JNum := none
deriving DecidableEq

/-- One broker interaction, in program order. -/
inductive BrokerOp where
  | assertQueue : String → QueueOpts → BrokerOp
  | sendToQueue : String → String → Envelope → BrokerOp
  | publish : String → String → String → Envelope → BrokerOp
deriving DecidableEq

/-- The body argument of a broker operation, when it carries one. -/
def BrokerOp.bodyOf : BrokerOp → Option String
  | .assertQueue _ _ => none
  | .sendToQueue _ b _ => some b
  | .publish _ _ b _ => some b

/-- One of the three terminal operations on a pooled handle. -/
inductive PoolAction where
  | acquire : PoolAction
  | release : PoolAction
  | destroy : PoolAction
deriving DecidableEq

/-- The failures `_send` and `_setupDemitQueue` can propagate. -/
inductive EmitErr where
  | invalidPriority : EmitErr
  | invalidDelay : EmitErr
  | broker : String → EmitErr
  | listener : EmitErr
deriving DecidableEq

instance {ε α : Type} [DecidableEq ε] [DecidableEq α] : DecidableEq (Except ε α) := fun a b =>
  match a, b with
  | .ok x, .ok y =>
    if h : x = y then .isTrue (by rw [h]) else .isFalse (by intro hc; cases hc; exact h rfl)
  | .error x, .error y =>
    if h : x = y then .isTrue (by rw [h]) else .isFalse (by intro hc; cases hc; exact h rfl)
  | .ok _, .error _ => .isFalse (by intro hc; cases hc)
  | .error _, .ok _ => .isFalse (by intro hc; cases hc)

/-- Result of `_setupDemitQueue`: the returned value (`false` is
`none`, `{queue, expiration}` is `some`), the pool-handle activity, and
the broker declarations attempted. -/
structure SetupOut where
  result : Except EmitErr (Option (String × JNum))
  events : List (Nat × PoolAction)
  declares : List BrokerOp
deriving DecidableEq

/-- Result of `_send`: the returned sent event or propagated failure,
the pool-handle activity, the broker interactions, and whether the
unserializable-payload warning was printed. -/
structure SentEvent where
  message : Envelope
  routingKey : String
  payload : String
  flowType : String
deriving DecidableEq

structure SendOut where
  result : Except EmitErr SentEvent
  events : List (Nat × PoolAction)
  ops : List BrokerOp
  warned : Bool
deriving DecidableEq

/-- Guard 1 of `_setupDemitQueue` (line 190):
`isNaN(opts.delay) && !opts.schedule`, the no-demit fast path. -/
def demitSkip (p : NOpts) : Bool :=
  (delayVal p).isNaNJS && !(schedVal p).truthy

/-- Guard 2 of `_setupDemitQueue` (lines 194-197): an unusable delay
together with an unusable schedule is a validation error. -/
def demitInvalid (p : NOpts) : Bool :=
  (!(delayVal p).truthy || (delayVal p).isNaNJS) &&
    (!(schedVal p).truthy || !(schedVal p).isDate || (schedVal p).isInvalidDateStr)

/-- Line 201: the group key, rendered as it appears inside the template
string for the queue name. -/
def demitGroupStr (p : NOpts) : String :=
  if (schedVal p).truthy then (schedVal p).toNum.render else (delayVal p).render

/-- Line 202: `opts.schedule ? (+opts.schedule - time) : opts.delay`. -/
def demitExpiration (p : NOpts) (time : Int) : JNum :=
  if (schedVal p).truthy then (schedVal p).toNum.sub (.fin time) else (delayVal p).toNum

/-- Line 224: the auxiliary queue name
`d:<exchange>:<event>:<group>`. -/
def demitQueueName (exchange : String) (p : NOpts) : String :=
  "d:" ++ exchange ++ ":" ++ p.event ++ ":" ++ demitGroupStr p

/-- Lines 208-221: queue declaration parameters.  On the delay path the
message TTL is the expiration and the queue expiry is twice the
expiration; otherwise the queue expiry is the expiration plus a 60000 ms
grace window and no message TTL is set. -/
def demitQueueOpts (exchange : String) (p : NOpts) (time : Int) : QueueOpts :=
  let expiration := demitExpiration p time
  { exclusive := false
    durable := true
    autoDelete := true
    deadLetterExchange := exchange
    deadLetterRoutingKey := p.event
    messageTtl := if (delayVal p).truthy then some expiration else none
    expires := if (delayVal p).truthy then some (expiration.mul 2) else some (expiration.add 60000) }

/-- The character with code point 39 (a single quote). -/
def squoteChar : Char := Char.ofNat 39

/-- JS `s.substr(start, len)` (the error messages involved are pure
ASCII, so code units coincide with characters). -/
def jsSubstr (s : String) (start len : Nat) : String :=
  String.mk ((s.data.drop start).take len)

/-- The literal compared against on line 235. -/
def expiresConflictMsg : String :=
  "inequivalent arg " ++ String.mk [squoteChar] ++ "x-expires" ++ String.mk [squoteChar]

/-- Line 235: the tolerated-conflict test — scheduling, a truthy error
message, and characters 94..121 of the message spelling the inequivalent
x-expires argument. -/
def toleratedConflict (p : NOpts) (msg : String) : Bool :=
  (schedVal p).truthy && !(msg == "") && (jsSubstr msg 94 28 == expiresConflictMsg)

/-- `Emitter._setupDemitQueue` (lines 189-241).  `assertOutcome` is
`none` when `worker.assertQueue` succeeds and `some msg` when it throws
an error with message `msg`.  The handle acquired here is numbered 0. -/
def setupDemitQueue (exchange : String) (p : NOpts) (time : Int)
    (assertOutcome : Option String) : SetupOut :=
  if demitSkip p then
    { result := .ok none, events := [], declares := [] }
  else if demitInvalid p then
    { result := .error .invalidDelay, events := [], declares := [] }
  else
    let expiration := demitExpiration p time
    if expiration.ltb (.fin 1) then
      { result := .ok none, events := [], declares := [] }
    else
      let queue := demitQueueName exchange p
      let qOpts := demitQueueOpts exchange p time
      match assertOutcome with
      | none =>
        { result := .ok (some (queue, expiration))
          events := [(0, .acquire), (0, .release)]
          declares := [.assertQueue queue qOpts] }
      | some msg =>
        if toleratedConflict p msg then
          { result := .ok (some (queue, expiration))
            events := [(0, .acquire), (0, .destroy)]
            declares := [.assertQueue queue qOpts] }
        else
          { result := .error (.broker msg)
            events := [(0, .acquire), (0, .destroy)]
            declares := [.assertQueue queue qOpts] }

/-- Line 83 condition combined with lines 84-85: a truthy priority
outside [0, 10] throws. -/
def prioThrows : Option Int → Bool
  | none => false
  | some pr => pr != 0 && (pr > 10 || pr < 0)

/-- Line 88: the priority attached to the message (only a truthy,
validated priority is attached). -/
def msgPrio : Option Int → Option Int
  | none => none
  | some pr => if pr != 0 then some pr else none

/-- The message as first assembled (lines 71-81 plus the priority
assignment of line 88). -/
def baseEnvelope (appId messageId : String) (now : Int) (p : NOpts) : Envelope :=
  { messageId := messageId
    appId := appId
    timestamp := now
    priority := msgPrio p.priority }

/-- Lines 119-167 of `_send`: demit-queue resolution, worker
acquisition (handle 1), the route / publish branch, release on success,
destroy on a thrown failure.  The `catch` block covers everything up to
and including the listener notification, so a throwing listener also
reaches `destroy`. -/
def sendRest (exchange appId messageId : String) (now : Int) (p : NOpts)
    (parsedData : String) (assertOutcome routeOutcome : Option String)
    (listenerThrows : Bool) :
    Except EmitErr SentEvent × List (Nat × PoolAction) × List BrokerOp :=
  let setup := setupDemitQueue exchange p now assertOutcome
  match setup.result with
  | .error e => (.error e, setup.events, setup.declares)
  | .ok demit =>
    let events0 := setup.events ++ [(1, .acquire)]
    let msg0 := baseEnvelope appId messageId now p
    let routed : BrokerOp × Envelope :=
      match demit with
      | some (queue, expiration) =>
        let msg1 :=
          if (schedVal p).truthy then
            { msg0 with headersScheduled := some (schedVal p).toNum, expiration := some expiration }
          else
            { msg0 with headersDelay := some (delayVal p) }
        (.sendToQueue queue parsedData msg1, msg1)
      | none => (.publish exchange p.event parsedData msg0, msg0)
    let ops := setup.declares ++ [routed.1]
    match routeOutcome with
    | some m => (.error (.broker m), events0 ++ [(1, .destroy)], ops)
    | none =>
      if listenerThrows then
        (.error .listener, events0 ++ [(1, .release), (1, .destroy)], ops)
      else
        (.ok { message := routed.2, routingKey := p.event
               payload := parsedData, flowType := "exit" },
         events0 ++ [(1, .release)], ops)

/-- The body of `Emitter._send` (lines 63-168) after option parsing,
over the already normalized options.  `dataSer` is the result of
`JSON.stringify(data)` (`none` when it is `undefined`); an undefined
serialization is replaced by the string "null" and a warning printed
(lines 94-101).  The priority check (lines 83-89) precedes
serialization, so a priority failure throws with no warning, no pool
activity and no broker interaction. -/
def sendCore (exchange appId messageId : String) (now : Int) (p : NOpts)
    (dataSer : Option String) (assertOutcome routeOutcome : Option String)
    (listenerThrows : Bool) : SendOut :=
  if prioThrows p.priority then
    { result := .error .invalidPriority, events := [], ops := [], warned := false }
  else
    let out := sendRest exchange appId messageId now p (dataSer.getD "null")
      assertOutcome routeOutcome listenerThrows
    { result := out.1, events := out.2.1, ops := out.2.2, warned := dataSer.isNone }

/-- `Emitter._send` over raw options: `_generateOptions` followed by the
send body. -/
def send (defaults : NOpts) (msFn : String → Option Int)
    (exchange appId messageId : String) (now : Int) (opts : RawOpts)
    (dataSer : Option String) (assertOutcome routeOutcome : Option String)
    (listenerThrows : Bool) : SendOut :=
  sendCore exchange appId messageId now (generateOptions defaults msFn opts)
    dataSer assertOutcome routeOutcome listenerThrows

/-- The actions performed on one given handle, in order. -/
def handleEvents (l : List (Nat × PoolAction)) (h : Nat) : List PoolAction :=
  l.filterMap fun e => if e.1 = h then some e.2 else none

/-- The pooled-resource discipline for one handle: either it was never
acquired, or it was acquired and then exactly released, or acquired and
then exactly destroyed. -/
def handleDisciplined (l : List (Nat × PoolAction)) (h : Nat) : Bool :=
  handleEvents l h == [] || handleEvents l h == [.acquire, .release] ||
    handleEvents l h == [.acquire, .destroy]

/-! ### Decimal rendering: helper lemmas

The queue-name claims need that the decimal rendering of the group key
is injective. -/

theorem digitChar_inj_lt : ∀ a < 10, ∀ b < 10, digitChar a = digitChar b → a = b := by
  decide

theorem digitChar_ne_minus : ∀ d < 10, digitChar d ≠ Char.ofNat 45 := by
  decide

theorem natDigitsAux_acc (fuel : Nat) :
    ∀ n acc, n < fuel → natDigitsAux fuel n acc = natDigitsAux fuel n [] ++ acc := by
  induction fuel with
  | zero => intro n acc h; omega
  | succ f ih =>
    intro n acc h
    by_cases h10 : n < 10
    · simp [natDigitsAux, h10]
    · have hdiv : n / 10 < f := by
        have h1 : n / 10 < n := Nat.div_lt_self (by omega) (by omega)
        omega
      simp only [natDigitsAux, h10, if_false]
      rw [ih (n / 10) (digitChar (n % 10) :: acc) hdiv,
        ih (n / 10) [digitChar (n % 10)] hdiv, List.append_assoc]
      simp

theorem natDigitsAux_fuel (f1 : Nat) :
    ∀ f2 n, n < f1 → n < f2 → natDigitsAux f1 n [] = natDigitsAux f2 n [] := by
  induction f1 with
  | zero => intro f2 n h; omega
  | succ f ih =>
    intro f2 n h1 h2
    match f2, h2 with
    | g + 1, h2 =>
      by_cases h10 : n < 10
      · simp [natDigitsAux, h10]
      · have hdiv1 : n / 10 < f := by
          have hx : n / 10 < n := Nat.div_lt_self (by omega) (by omega); omega
        have hdiv2 : n / 10 < g := by
          have hx : n / 10 < n := Nat.div_lt_self (by omega) (by omega); omega
        simp only [natDigitsAux, h10, if_false]
        rw [natDigitsAux_acc f _ _ hdiv1, natDigitsAux_acc g _ _ hdiv2, ih g (n / 10) hdiv1 hdiv2]

theorem natDigitsAux_head (fuel : Nat) :
    ∀ n, n < fuel → ∃ d t, d < 10 ∧ natDigitsAux fuel n [] = digitChar d :: t := by
  induction fuel with
  | zero => intro n h; omega
  | succ f ih =>
    intro n h
    by_cases h10 : n < 10
    · exact ⟨n, [], h10, by simp [natDigitsAux, h10]⟩
    · have hdiv : n / 10 < f := by
        have hx : n / 10 < n := Nat.div_lt_self (by omega) (by omega); omega
      obtain ⟨d, t, hd, ht⟩ := ih (n / 10) hdiv
      refine ⟨d, t ++ [digitChar (n % 10)], hd, ?_⟩
      simp only [natDigitsAux, h10, if_false]
      rw [natDigitsAux_acc f _ _ hdiv, ht]
      simp

theorem natDigitsAux_ne_nil (fuel n : Nat) (h : n < fuel) : natDigitsAux fuel n [] ≠ [] := by
  obtain ⟨d, t, _, ht⟩ := natDigitsAux_head fuel n h
  simp [ht]

theorem natDigitsAux_inj (f1 : Nat) :
    ∀ f2 m n, m < f1 → n < f2 →
      natDigitsAux f1 m [] = natDigitsAux f2 n [] → m = n := by
  induction f1 with
  | zero => intro f2 m n h; omega
  | succ f ih =>
    intro f2 m n hm hn heq
    match f2, hn with
    | g + 1, hn =>
      by_cases hm10 : m < 10 <;> by_cases hn10 : n < 10
      · simp only [natDigitsAux, hm10, hn10, if_true] at heq
        exact digitChar_inj_lt m hm10 n hn10 (List.cons.injEq .. ▸ heq).1
      · exfalso
        have hdivn : n / 10 < g := by
          have hx : n / 10 < n := Nat.div_lt_self (by omega) (by omega); omega
        simp only [natDigitsAux, hm10, hn10, if_true, if_false] at heq
        rw [natDigitsAux_acc g _ _ hdivn] at heq
        have hlen := congrArg List.length heq
        have hne := natDigitsAux_ne_nil g (n / 10) hdivn
        simp only [List.length_cons, List.length_append, List.length_nil] at hlen
        exact hne (List.eq_nil_of_length_eq_zero (by omega))
      · exfalso
        have hdivm : m / 10 < f := by
          have hx : m / 10 < m := Nat.div_lt_self (by omega) (by omega); omega
        simp only [natDigitsAux, hm10, hn10, if_true, if_false] at heq
        rw [natDigitsAux_acc f _ _ hdivm] at heq
        have hlen := congrArg List.length heq
        have hne := natDigitsAux_ne_nil f (m / 10) hdivm
        simp only [List.length_cons, List.length_append, List.length_nil] at hlen
        exact hne (List.eq_nil_of_length_eq_zero (by omega))
      · have hdivm : m / 10 < f := by
          have hx : m / 10 < m := Nat.div_lt_self (by omega) (by omega); omega
        have hdivn : n / 10 < g := by
          have hx : n / 10 < n := Nat.div_lt_self (by omega) (by omega); omega
        simp only [natDigitsAux, hm10, hn10, if_false] at heq
        rw [natDigitsAux_acc f _ _ hdivm, natDigitsAux_acc g _ _ hdivn] at heq
        have hrev := congrArg List.reverse heq
        simp only [List.reverse_append, List.reverse_cons, List.reverse_nil,
          List.nil_append, List.singleton_append] at hrev
        have hhead : digitChar (m % 10) = digitChar (n % 10) :=
          (List.cons.injEq .. ▸ hrev).1
        have htail : (natDigitsAux f (m / 10) []).reverse
            = (natDigitsAux g (n / 10) []).reverse := (List.cons.injEq .. ▸ hrev).2
        have hmod : m % 10 = n % 10 :=
          digitChar_inj_lt (m % 10) (Nat.mod_lt m (by omega)) (n % 10)
            (Nat.mod_lt n (by omega)) hhead
        have hdiv : m / 10 = n / 10 :=
          ih g (m / 10) (n / 10) hdivm hdivn (List.reverse_injective htail)
        omega

theorem natDigits_inj {m n : Nat} (h : natDigits m = natDigits n) : m = n :=
  natDigitsAux_inj (m + 1) (n + 1) m n (Nat.lt_succ_self m) (Nat.lt_succ_self n) h

theorem natDigits_head (n : Nat) : ∃ d t, d < 10 ∧ natDigits n = digitChar d :: t :=
  natDigitsAux_head (n + 1) n (Nat.lt_succ_self n)

theorem intDigits_inj {m n : Int} (h : intDigits m = intDigits n) : m = n := by
  match m, n with
  | .ofNat a, .ofNat b =>
    simp only [intDigits] at h
    exact congrArg Int.ofNat (natDigits_inj h)
  | .ofNat a, .negSucc b =>
    exfalso
    obtain ⟨d, t, hd, ht⟩ := natDigits_head a
    simp only [intDigits, ht] at h
    exact digitChar_ne_minus d hd (List.cons.injEq .. ▸ h).1
  | .negSucc a, .ofNat b =>
    exfalso
    obtain ⟨d, t, hd, ht⟩ := natDigits_head b
    simp only [intDigits, ht] at h
    exact digitChar_ne_minus d hd ((List.cons.injEq .. ▸ h).1).symm
  | .negSucc a, .negSucc b =>
    simp only [intDigits] at h
    have hab := natDigits_inj (List.cons.injEq .. ▸ h).2
    exact congrArg Int.negSucc (by omega : a = b)

theorem intDecStr_inj {m n : Int} (h : intDecStr m = intDecStr n) : m = n := by
  apply intDigits_inj
  have hd := congrArg String.data h
  simpa [intDecStr] using hd

theorem strAppend_left_cancel {a b c : String} (h : a ++ b = a ++ c) : b = c := by
  apply String.ext
  have hd := congrArg String.data h
  simp only [String.data_append] at hd
  exact List.append_cancel_left hd

/-! ### Case-analysis lemmas about `setupDemitQueue` and `sendRest` -/

theorem setupDemitQueue_ok_some {exchange : String} {p : NOpts} {time : Int}
    {ao : Option String} {q : String} {e : JNum}
    (h : (setupDemitQueue exchange p time ao).result = .ok (some (q, e))) :
    q = demitQueueName exchange p ∧ e = demitExpiration p time := by
  by_cases h1 : demitSkip p
  · simp [setupDemitQueue, h1] at h
  by_cases h2 : demitInvalid p
  · simp [setupDemitQueue, h1, h2] at h
  by_cases h3 : (demitExpiration p time).ltb (.fin 1)
  · simp [setupDemitQueue, h1, h2, h3] at h
  match ao with
  | none =>
    simp [setupDemitQueue, h1, h2, h3] at h
    exact ⟨h.1.symm, h.2.symm⟩
  | some msg =>
    by_cases h4 : toleratedConflict p msg
    · simp [setupDemitQueue, h1, h2, h3, h4] at h
      exact ⟨h.1.symm, h.2.symm⟩
    · simp [setupDemitQueue, h1, h2, h3, h4] at h

theorem setupDemitQueue_err {exchange : String} {p : NOpts} {time : Int}
    {ao : Option String} {e : EmitErr}
    (h : (setupDemitQueue exchange p time ao).result = .error e) :
    e = .invalidDelay ∨ ∃ m, e = .broker m := by
  by_cases h1 : demitSkip p
  · simp [setupDemitQueue, h1] at h
  by_cases h2 : demitInvalid p
  · simp [setupDemitQueue, h1, h2] at h
    exact .inl h.symm
  by_cases h3 : (demitExpiration p time).ltb (.fin 1)
  · simp [setupDemitQueue, h1, h2, h3] at h
  match ao with
  | none => simp [setupDemitQueue, h1, h2, h3] at h
  | some msg =>
    by_cases h4 : toleratedConflict p msg
    · simp [setupDemitQueue, h1, h2, h3, h4] at h
    · simp [setupDemitQueue, h1, h2, h3, h4] at h
      exact .inr ⟨msg, h.symm⟩

theorem setupDemitQueue_declares_body {exchange : String} {p : NOpts} {time : Int}
    {ao : Option String} :
    ∀ op ∈ (setupDemitQueue exchange p time ao).declares, op.bodyOf = none := by
  intro op hop
  by_cases h1 : demitSkip p
  · simp [setupDemitQueue, h1] at hop
  by_cases h2 : demitInvalid p
  · simp [setupDemitQueue, h1, h2] at hop
  by_cases h3 : (demitExpiration p time).ltb (.fin 1)
  · simp [setupDemitQueue, h1, h2, h3] at hop
  match ao with
  | none =>
    simp [setupDemitQueue, h1, h2, h3] at hop
    simp [hop, BrokerOp.bodyOf]
  | some msg =>
    by_cases h4 : toleratedConflict p msg
    · simp [setupDemitQueue, h1, h2, h3, h4] at hop
      simp [hop, BrokerOp.bodyOf]
    · simp [setupDemitQueue, h1, h2, h3, h4] at hop
      simp [hop, BrokerOp.bodyOf]

theorem setupDemitQueue_declares_of_reached {exchange : String} {p : NOpts} {time : Int}
    {ao : Option String}
    (h1 : demitSkip p = false) (h2 : demitInvalid p = false)
    (h3 : (demitExpiration p time).ltb (.fin 1) = false) :
    (setupDemitQueue exchange p time ao).declares
      = [.assertQueue (demitQueueName exchange p) (demitQueueOpts exchange p time)] := by
  match ao with
  | none => simp [setupDemitQueue, h1, h2, h3]
  | some msg =>
    by_cases h4 : toleratedConflict p msg
    · simp [setupDemitQueue, h1, h2, h3, h4]
    · simp [setupDemitQueue, h1, h2, h3, h4]

theorem setupDemitQueue_priority_irrel (exchange ev : String) (pr1 pr2 : Option Int)
    (de : Option DVal) (sc : Option SVal) (time : Int) (ao : Option String) :
    setupDemitQueue exchange ⟨ev, pr1, de, sc⟩ time ao
      = setupDemitQueue exchange ⟨ev, pr2, de, sc⟩ time ao := rfl

theorem sendRest_no_priority_err (exchange appId messageId : String) (now : Int)
    (p : NOpts) (pd : String) (ao ro : Option String) (lt : Bool) :
    (sendRest exchange appId messageId now p pd ao ro lt).1 ≠ .error .invalidPriority := by
  unfold sendRest
  dsimp only
  cases hres : (setupDemitQueue exchange p now ao).result with
  | error e =>
    rcases setupDemitQueue_err hres with h | ⟨m, h⟩ <;> simp [h]
  | ok demit =>
    cases demit with
    | none => cases ro <;> cases lt <;> simp
    | some qe => cases ro <;> cases lt <;> simp

theorem sendRest_ops_body (exchange appId messageId : String) (now : Int) (p : NOpts)
    (pd : String) (ao ro : Option String) (lt : Bool) :
    ∀ op ∈ (sendRest exchange appId messageId now p pd ao ro lt).2.2,
      op.bodyOf = none ∨ op.bodyOf = some pd := by
  intro op hop
  unfold sendRest at hop
  dsimp only at hop
  cases hres : (setupDemitQueue exchange p now ao).result with
  | error e =>
    rw [hres] at hop
    simp at hop
    exact .inl (setupDemitQueue_declares_body op hop)
  | ok demit =>
    rw [hres] at hop
    cases demit with
    | none =>
      cases ro <;> cases lt <;> simp at hop <;>
        rcases hop with hdec | hone
      · exact .inl (setupDemitQueue_declares_body op hdec)
      · exact .inr (by simp [hone, BrokerOp.bodyOf])
      · exact .inl (setupDemitQueue_declares_body op hdec)
      · exact .inr (by simp [hone, BrokerOp.bodyOf])
      · exact .inl (setupDemitQueue_declares_body op hdec)
      · exact .inr (by simp [hone, BrokerOp.bodyOf])
      · exact .inl (setupDemitQueue_declares_body op hdec)
      · exact .inr (by simp [hone, BrokerOp.bodyOf])
    | some qe =>
      obtain ⟨q, e⟩ := qe
      by_cases hsch : (schedVal p).truthy <;>
        cases ro <;> cases lt <;> simp [hsch] at hop <;>
          rcases hop with hdec | hone
      · exact .inl (setupDemitQueue_declares_body op hdec)
      · exact .inr (by simp [hone, BrokerOp.bodyOf])
      · exact .inl (setupDemitQueue_declares_body op hdec)
      · exact .inr (by simp [hone, BrokerOp.bodyOf])
      · exact .inl (setupDemitQueue_declares_body op hdec)
      · exact .inr (by simp [hone, BrokerOp.bodyOf])
      · exact .inl (setupDemitQueue_declares_body op hdec)
      · exact .inr (by simp [hone, BrokerOp.bodyOf])
      · exact .inl (setupDemitQueue_declares_body op hdec)
      · exact .inr (by simp [hone, BrokerOp.bodyOf])
      · exact .inl (setupDemitQueue_declares_body op hdec)
      · exact .inr (by simp [hone, BrokerOp.bodyOf])
      · exact .inl (setupDemitQueue_declares_body op hdec)
      · exact .inr (by simp [hone, BrokerOp.bodyOf])
      · exact .inl (setupDemitQueue_declares_body op hdec)
      · exact .inr (by simp [hone, BrokerOp.bodyOf])

theorem sendRest_ok_of_setup_ok (exchange appId messageId : String) (now : Int)
    (p : NOpts) (pd : String) (ao : Option String) (r : Option (String × JNum))
    (hr : (setupDemitQueue exchange p now ao).result = .ok r) :
    ∃ ev, (sendRest exchange appId messageId now p pd ao none false).1 = .ok ev := by
  unfold sendRest
  dsimp only
  rw [hr]
  cases r with
  | none => exact ⟨_, rfl⟩
  | some qe =>
    obtain ⟨q, e⟩ := qe
    by_cases hsch : (schedVal p).truthy <;> simp [hsch]

/-! ### Claims -/

/-- C1: the claim states that every successfully acquired pool handle
has exactly one of release or destroy invoked on it before the send
attempt completes, on every success and failure path.  The code violates
this: the catch block of `_send` extends past the release of the worker
(through the post-publish yield, the event construction and the listener
notification), so when the publish succeeds and a registered listener of
the local sent event throws, the already-released worker is additionally
destroyed.  This theorem evaluates the model at such an input: the
worker handle (number 1) sees acquire, then release, then destroy —
both terminal operations on one handle. -/
theorem sendWorkerReleasedThenDestroyed :
    (sendCore "remit" "app" "msg-1" 0 { event := "my.event" } (some "42") none none
        true).events = [(1, .acquire), (1, .release), (1, .destroy)] ∧
      handleDisciplined
        (sendCore "remit" "app" "msg-1" 0 { event := "my.event" } (some "42") none none
          true).events 1 = false := by
  decide

/-- C2 (counterexample): the claim states that whenever a delay is
present but is not a valid positive duration and no valid schedule
exists, `_setupDemitQueue` fails with a validation error and never
silently returns false.  A present delay of -5000 ms is not a valid
positive duration and no schedule exists, yet the resolver returns
false (immediate send) with no error, no pool activity and no
declaration: the negative value passes both guards and is swallowed by
the expiration-below-one check. -/
theorem negativeDelaySilentlySkips :
    (setupDemitQueue "remit" { event := "ev", delay := some (.dnum (-5000)) } 0 none).result
        = .ok none ∧
      (setupDemitQueue "remit" { event := "ev", delay := some (.dnum (-5000)) } 0 none).events
        = [] ∧
      (setupDemitQueue "remit" { event := "ev", delay := some (.dnum (-5000)) } 0 none).declares
        = [] := by
  decide

/-- C2 (amended): with no schedule present, `_setupDemitQueue` raises
the validation error exactly when the delay value is null or the number
0; a NaN-like delay (NaN, undefined such as an unparsable duration
string, or an invalid Date) silently resolves to false through the
no-delay guard, and a negative duration silently resolves to false
through the expiration-below-one check. -/
theorem demitValidationCharacterization (exchange : String) (p : NOpts) (time : Int)
    (ao : Option String) (hs : (schedVal p).truthy = false) :
    (setupDemitQueue exchange p time ao).result = .error .invalidDelay
      ↔ delayVal p = .dnull ∨ delayVal p = .dnum 0 := by
  have hskip : demitSkip p = (delayVal p).isNaNJS := by
    simp [demitSkip, hs]
  have hinv : demitInvalid p = (!(delayVal p).truthy || (delayVal p).isNaNJS) := by
    simp [demitInvalid, hs]
  have hexp : demitExpiration p time = (delayVal p).toNum := by
    simp [demitExpiration, hs]
  cases hd : delayVal p with
  | dnull =>
    simp [setupDemitQueue, hskip, hinv, hd, DVal.isNaNJS, DVal.truthy]
  | dundefined =>
    simp [setupDemitQueue, hskip, hinv, hd, DVal.isNaNJS]
  | dnan =>
    simp [setupDemitQueue, hskip, hinv, hd, DVal.isNaNJS]
  | dinvalid =>
    simp [setupDemitQueue, hskip, hinv, hd, DVal.isNaNJS]
  | dnum n =>
    by_cases hn : n = 0
    · subst hn
      simp [setupDemitQueue, hskip, hinv, hd, DVal.isNaNJS, DVal.truthy]
    · by_cases hlt : n < 1
      · simp [setupDemitQueue, hskip, hinv, hexp, hd, DVal.isNaNJS, DVal.truthy, DVal.toNum,
          JNum.ltb, hn, hlt]
      · match ao with
        | none =>
          simp [setupDemitQueue, hskip, hinv, hexp, hd, DVal.isNaNJS, DVal.truthy, DVal.toNum,
            JNum.ltb, hn, hlt]
        | some msg =>
          have htol : toleratedConflict p msg = false := by
            simp [toleratedConflict, hs]
          simp [setupDemitQueue, hskip, hinv, hexp, hd, DVal.isNaNJS, DVal.truthy, DVal.toNum,
            JNum.ltb, hn, hlt, htol]

/-- C2 (witness for the amended theorem): a null delay with no schedule
is exactly the error case. -/
theorem demitValidationCharacterizationWitness :
    (setupDemitQueue "remit" { event := "ev", delay := some .dnull } 0 none).result
        = .error .invalidDelay
      ↔ delayVal { event := "ev", delay := some .dnull } = .dnull ∨
        delayVal { event := "ev", delay := some .dnull } = .dnum 0 :=
  demitValidationCharacterization "remit" { event := "ev", delay := some .dnull } 0 none
    (by decide)

/-- C3: for every resolved priority value outside the closed interval
0..10, `_send` throws the priority validation error, with no pool handle
acquired and no broker interaction of any kind (and no serialization
warning, since the throw precedes serialization). -/
theorem priorityOutOfRangeFailsFirst (exchange appId messageId : String) (now : Int)
    (p : NOpts) (dataSer : Option String) (ao ro : Option String) (lt : Bool)
    (pr : Int) (hp : p.priority = some pr) (hout : 10 < pr ∨ pr < 0) :
    sendCore exchange appId messageId now p dataSer ao ro lt
      = { result := .error .invalidPriority, events := [], ops := [], warned := false } := by
  have ht : prioThrows p.priority = true := by
    rw [hp]
    simp only [prioThrows, bne_iff_ne, ne_eq, Bool.and_eq_true, Bool.or_eq_true,
      decide_eq_true_eq]
    omega
  simp [sendCore, ht]

/-- C3 (witness): priority 11 fails immediately. -/
theorem priorityOutOfRangeFailsFirstWitness :
    sendCore "remit" "app" "msg-1" 0 { event := "ev", priority := some 11 } (some "42")
        none none false
      = { result := .error .invalidPriority, events := [], ops := [], warned := false } :=
  priorityOutOfRangeFailsFirst "remit" "app" "msg-1" 0
    { event := "ev", priority := some 11 } (some "42") none none false 11 rfl
    (.inl (by decide))

/-- C4: for every payload whose serialization yields undefined, the send
does not fail because of the payload: the diagnostic warning is
surfaced, the outcome (result, pool activity, broker interactions) is
identical to sending the literal null payload, every broker operation
carries either no body or the canonical null representation, and under
benign collaborators the send completes successfully. -/
theorem unserializablePayloadBecomesNull (exchange appId messageId : String) (now : Int)
    (p : NOpts) (ao ro : Option String) (lt : Bool)
    (hp : prioThrows p.priority = false)
    (hset : ∃ r, (setupDemitQueue exchange p now ao).result = .ok r) :
    (sendCore exchange appId messageId now p none ao ro lt).warned = true ∧
    (sendCore exchange appId messageId now p none ao ro lt).result
      = (sendCore exchange appId messageId now p (some "null") ao ro lt).result ∧
    (sendCore exchange appId messageId now p none ao ro lt).events
      = (sendCore exchange appId messageId now p (some "null") ao ro lt).events ∧
    (sendCore exchange appId messageId now p none ao ro lt).ops
      = (sendCore exchange appId messageId now p (some "null") ao ro lt).ops ∧
    (∀ op ∈ (sendCore exchange appId messageId now p none ao ro lt).ops,
      op.bodyOf = none ∨ op.bodyOf = some "null") ∧
    (ro = none → lt = false →
      ∃ ev, (sendCore exchange appId messageId now p none ao ro lt).result = .ok ev) := by
  refine ⟨by simp [sendCore, hp], by simp [sendCore, hp], by simp [sendCore, hp],
    by simp [sendCore, hp], ?_, ?_⟩
  · intro op hop
    have hops : (sendCore exchange appId messageId now p none ao ro lt).ops
        = (sendRest exchange appId messageId now p "null" ao ro lt).2.2 := by
      simp [sendCore, hp]
    rw [hops] at hop
    exact sendRest_ops_body exchange appId messageId now p "null" ao ro lt op hop
  · rintro rfl rfl
    obtain ⟨r, hr⟩ := hset
    have hres : (sendCore exchange appId messageId now p none ao none false).result
        = (sendRest exchange appId messageId now p "null" ao none false).1 := by
      simp [sendCore, hp]
    rw [hres]
    exact sendRest_ok_of_setup_ok exchange appId messageId now p "null" ao r hr

/-- C4 (witness): a send with an unserializable payload, no delay and
benign collaborators. -/
theorem unserializablePayloadBecomesNullWitness :
    (sendCore "remit" "app" "msg-1" 0 { event := "ev" } none none none false).warned = true ∧
    (sendCore "remit" "app" "msg-1" 0 { event := "ev" } none none none false).result
      = (sendCore "remit" "app" "msg-1" 0 { event := "ev" } (some "null") none none
          false).result ∧
    (sendCore "remit" "app" "msg-1" 0 { event := "ev" } none none none false).events
      = (sendCore "remit" "app" "msg-1" 0 { event := "ev" } (some "null") none none
          false).events ∧
    (sendCore "remit" "app" "msg-1" 0 { event := "ev" } none none none false).ops
      = (sendCore "remit" "app" "msg-1" 0 { event := "ev" } (some "null") none none
          false).ops ∧
    (∀ op ∈ (sendCore "remit" "app" "msg-1" 0 { event := "ev" } none none none false).ops,
      op.bodyOf = none ∨ op.bodyOf = some "null") ∧
    ((none : Option String) = none → false = false →
      ∃ ev, (sendCore "remit" "app" "msg-1" 0 { event := "ev" } none none none
          false).result = .ok ev) :=
  unserializablePayloadBecomesNull "remit" "app" "msg-1" 0 { event := "ev" } none none false
    (by decide) ⟨none, by decide⟩

/-- C6 (counterexample): the claim states that whenever the computed
expiration (schedule minus now when scheduling, else the delay value) is
below one millisecond, `_setupDemitQueue` returns false and the message
goes out via direct publish.  A delay of 0 has computed expiration 0,
which is below one millisecond, yet the resolver throws the validation
error instead of returning false: the falsy delay is caught by the
malformed-options guard before the expiration check is reached. -/
theorem zeroDelayThrowsInsteadOfSkipping :
    (setupDemitQueue "remit" { event := "ev", delay := some (.dnum 0) } 0 none).result
      = .error .invalidDelay := by
  decide

/-- C6 (amended): whenever the options pass both guards of
`_setupDemitQueue` (so the resolver actually computes the expiration)
and the computed expiration is below one millisecond, the resolver
returns false with no declaration and no pool activity, and `_send`
performs exactly one direct publish to the origin exchange under the
event routing key. -/
theorem expiredDemitDirectPublish (exchange appId messageId : String) (now : Int)
    (p : NOpts) (dataSer : Option String) (ao ro : Option String) (lt : Bool)
    (h1 : demitSkip p = false) (h2 : demitInvalid p = false)
    (h3 : (demitExpiration p now).ltb (.fin 1) = true)
    (hp : prioThrows p.priority = false) :
    (setupDemitQueue exchange p now ao).result = .ok none ∧
    (setupDemitQueue exchange p now ao).events = [] ∧
    (setupDemitQueue exchange p now ao).declares = [] ∧
    (sendCore exchange appId messageId now p dataSer ao ro lt).ops
      = [.publish exchange p.event (dataSer.getD "null")
          (baseEnvelope appId messageId now p)] := by
  have hsetup : setupDemitQueue exchange p now ao
      = { result := .ok none, events := [], declares := [] } := by
    simp [setupDemitQueue, h1, h2, h3]
  refine ⟨by rw [hsetup], by rw [hsetup], by rw [hsetup], ?_⟩
  have hops : (sendCore exchange appId messageId now p dataSer ao ro lt).ops
      = (sendRest exchange appId messageId now p (dataSer.getD "null") ao ro lt).2.2 := by
    simp [sendCore, hp]
  rw [hops]
  unfold sendRest
  dsimp only
  rw [hsetup]
  cases ro <;> cases lt <;> simp

/-- C6 (witness): a send scheduled five milliseconds in the past — the
expiration resolves to -5, the resolver returns false and the message is
published directly. -/
theorem expiredDemitDirectPublishWitness :
    (setupDemitQueue "remit" { event := "ev", schedule := some (.sdate 95) } 100 none).result
        = .ok none ∧
      (setupDemitQueue "remit" { event := "ev", schedule := some (.sdate 95) } 100
          none).events = [] ∧
      (setupDemitQueue "remit" { event := "ev", schedule := some (.sdate 95) } 100
          none).declares = [] ∧
      (sendCore "remit" "app" "msg-1" 100 { event := "ev", schedule := some (.sdate 95) }
          (some "42") none none false).ops
        = [.publish "remit" "ev" "42"
            (baseEnvelope "app" "msg-1" 100 { event := "ev", schedule := some (.sdate 95) })] :=
  expiredDemitDirectPublish "remit" "app" "msg-1" 100
    { event := "ev", schedule := some (.sdate 95) } (some "42") none none false
    (by decide) (by decide) (by decide) (by decide)

/-- C7: whenever `_setupDemitQueue` reaches the declaration step, it
declares exactly one queue, whose parameters dead-letter to the origin
exchange under the event routing key; on the delay path (truthy delay)
the message TTL equals the expiration and the queue expiry is twice the
expiration, and otherwise (schedule path) no message TTL is set and the
queue expiry is the expiration plus the fixed 60000 ms grace window. -/
theorem demitQueueDeclarationParams (exchange : String) (p : NOpts) (time : Int)
    (ao : Option String)
    (h1 : demitSkip p = false) (h2 : demitInvalid p = false)
    (h3 : (demitExpiration p time).ltb (.fin 1) = false) :
    (setupDemitQueue exchange p time ao).declares
        = [.assertQueue (demitQueueName exchange p) (demitQueueOpts exchange p time)] ∧
      (demitQueueOpts exchange p time).deadLetterExchange = exchange ∧
      (demitQueueOpts exchange p time).deadLetterRoutingKey = p.event ∧
      ((delayVal p).truthy = true →
        (demitQueueOpts exchange p time).messageTtl = some (demitExpiration p time) ∧
          (demitQueueOpts exchange p time).expires
            = some ((demitExpiration p time).mul 2)) ∧
      ((delayVal p).truthy = false →
        (demitQueueOpts exchange p time).messageTtl = none ∧
          (demitQueueOpts exchange p time).expires
            = some ((demitExpiration p time).add 60000)) := by
  refine ⟨setupDemitQueue_declares_of_reached h1 h2 h3, by simp [demitQueueOpts],
    by simp [demitQueueOpts], ?_, ?_⟩
  · intro hd
    constructor <;> simp [demitQueueOpts, hd]
  · intro hd
    constructor <;> simp [demitQueueOpts, hd]

/-- C7 (witness): a delay of 300000 ms (five minutes) declares one queue
with message TTL 300000 and expiry 600000. -/
theorem demitQueueDeclarationParamsWitness :
    (setupDemitQueue "remit" { event := "order.created", delay := some (.dnum 300000) } 0
          none).declares
        = [.assertQueue
            (demitQueueName "remit" { event := "order.created", delay := some (.dnum 300000) })
            (demitQueueOpts "remit" { event := "order.created", delay := some (.dnum 300000) }
              0)] ∧
      (demitQueueOpts "remit" { event := "order.created", delay := some (.dnum 300000) }
          0).deadLetterExchange = "remit" ∧
      (demitQueueOpts "remit" { event := "order.created", delay := some (.dnum 300000) }
            0).deadLetterRoutingKey
        = NOpts.event { event := "order.created", delay := some (.dnum 300000) } ∧
      ((delayVal { event := "order.created", delay := some (.dnum 300000) }).truthy = true →
        (demitQueueOpts "remit" { event := "order.created", delay := some (.dnum 300000) }
              0).messageTtl
            = some (demitExpiration { event := "order.created", delay := some (.dnum 300000) }
                0) ∧
          (demitQueueOpts "remit" { event := "order.created", delay := some (.dnum 300000) }
              0).expires
            = some ((demitExpiration { event := "order.created", delay := some (.dnum 300000) }
                0).mul 2)) ∧
      ((delayVal { event := "order.created", delay := some (.dnum 300000) }).truthy = false →
        (demitQueueOpts "remit" { event := "order.created", delay := some (.dnum 300000) }
              0).messageTtl = none ∧
          (demitQueueOpts "remit" { event := "order.created", delay := some (.dnum 300000) }
              0).expires
            = some ((demitExpiration { event := "order.created", delay := some (.dnum 300000) }
                0).add 60000)) :=
  demitQueueDeclarationParams "remit" { event := "order.created", delay := some (.dnum 300000) }
    0 none (by decide) (by decide) (by decide)

/-- C8: when queue declaration throws and the resolver has reached the
declaration step, the outcome is exactly determined by the tolerated
conflict test: on the scheduling path with an error message whose
characters 94..121 spell the inequivalent x-expires argument, the
resolver proceeds successfully with the descriptor as computed (the
queue name and expiration); any other declaration failure — including
the identical message on the delay path, where the schedule is falsy —
propagates as the fatal broker error. -/
theorem scheduleConflictTolerated (exchange : String) (p : NOpts) (time : Int) (msg : String)
    (h1 : demitSkip p = false) (h2 : demitInvalid p = false)
    (h3 : (demitExpiration p time).ltb (.fin 1) = false) :
    ((setupDemitQueue exchange p time (some msg)).result
        = if toleratedConflict p msg
          then .ok (some (demitQueueName exchange p, demitExpiration p time))
          else .error (.broker msg)) ∧
      ((schedVal p).truthy = false → toleratedConflict p msg = false) := by
  constructor
  · by_cases h4 : toleratedConflict p msg <;> simp [setupDemitQueue, h1, h2, h3, h4]
  · intro hs
    simp [toleratedConflict, hs]

/-- C8 (witness): a scheduled declaration conflict whose message matches
at offset 94 resolves to the computed descriptor; the matching test is
true on the schedule path and the identical message would not be
tolerated were the schedule falsy. -/
theorem scheduleConflictToleratedWitness :
    (setupDemitQueue "remit" { event := "ev", schedule := some (.sdate 100000) } 0
          (some (String.mk (List.replicate 94 (Char.ofNat 97)) ++ expiresConflictMsg))).result
        = .ok (some (demitQueueName "remit" { event := "ev", schedule := some (.sdate 100000) },
            demitExpiration { event := "ev", schedule := some (.sdate 100000) } 0)) := by
  have h := scheduleConflictTolerated "remit" { event := "ev", schedule := some (.sdate 100000) }
    0 (String.mk (List.replicate 94 (Char.ofNat 97)) ++ expiresConflictMsg)
    (by decide) (by decide) (by decide)
  rw [h.1]
  decide

theorem demitQueueName_sdate (exchange ev : String) (pr : Option Int) (dl : Option DVal)
    (t : Int) :
    demitQueueName exchange
        { event := ev, priority := pr, delay := dl, schedule := some (.sdate t) }
      = ("d:" ++ exchange ++ ":" ++ ev ++ ":") ++ intDecStr t := by
  simp [demitQueueName, demitGroupStr, schedVal, SVal.truthy, SVal.toNum, JNum.render]

/-- C5: the auxiliary queue name is a deterministic function of the
exchange, the event and the group key: two resolutions that produce a
descriptor for the same event and the same delay duration yield the same
queue name (whatever the time, priority or declaration outcome), while
two resolutions for the same event at distinct absolute schedule
timestamps yield distinct queue names. -/
theorem queueNameGrouping (exchange ev : String) (d : DVal)
    (pr1 pr2 pr3 pr4 : Option Int) (dl3 dl4 : Option DVal)
    (t1 t2 time1 time2 time3 time4 : Int) (a1 a2 a3 a4 : Option String)
    (q1 q2 q3 q4 : String) (e1 e2 e3 e4 : JNum)
    (h1 : (setupDemitQueue exchange
        { event := ev, priority := pr1, delay := some d, schedule := none } time1 a1).result
      = .ok (some (q1, e1)))
    (h2 : (setupDemitQueue exchange
        { event := ev, priority := pr2, delay := some d, schedule := none } time2 a2).result
      = .ok (some (q2, e2)))
    (h3 : (setupDemitQueue exchange
        { event := ev, priority := pr3, delay := dl3, schedule := some (.sdate t1) } time3
        a3).result = .ok (some (q3, e3)))
    (h4 : (setupDemitQueue exchange
        { event := ev, priority := pr4, delay := dl4, schedule := some (.sdate t2) } time4
        a4).result = .ok (some (q4, e4)))
    (hne : t1 ≠ t2) :
    q1 = q2 ∧ q3 ≠ q4 := by
  obtain ⟨hq1, -⟩ := setupDemitQueue_ok_some h1
  obtain ⟨hq2, -⟩ := setupDemitQueue_ok_some h2
  obtain ⟨hq3, -⟩ := setupDemitQueue_ok_some h3
  obtain ⟨hq4, -⟩ := setupDemitQueue_ok_some h4
  constructor
  · rw [hq1, hq2]
    rfl
  · rw [hq3, hq4, demitQueueName_sdate, demitQueueName_sdate]
    intro hcontra
    exact hne (intDecStr_inj (strAppend_left_cancel hcontra))

/-- C5 (witness): two 5000 ms delayed resolutions share one queue name,
while schedules at timestamps 1000 and 2000 get distinct names. -/
theorem queueNameGroupingWitness :
    ("d:remit:ev:5000" : String) = "d:remit:ev:5000" ∧
      ("d:remit:ev:1000" : String) ≠ "d:remit:ev:2000" :=
  queueNameGrouping "remit" "ev" (.dnum 5000) none none none none (some .dnull) (some .dnull)
    1000 2000 0 50 0 0 none none none none
    "d:remit:ev:5000" "d:remit:ev:5000" "d:remit:ev:1000" "d:remit:ev:2000"
    (.fin 5000) (.fin 5000) (.fin 1000) (.fin 2000)
    (by decide) (by decide) (by decide) (by decide) (by decide)

/-- C9 (counterexample): the claim states that every normalized options
value has at most one of delay and schedule non-null, including when new
options are merged over defaults carrying the other field.  The merge
only clears the other field when the incoming object itself has a delay
key: stored defaults of a five-second delay (themselves produced by
normalizing a delay of "5s") merged with new options that pass a
schedule directly yield a result carrying both the 5000 ms delay and the
schedule date. -/
theorem directScheduleKeepsDefaultDelay :
    mutuallyExclusive
        (generateOptions
          (generateOptions { event := "ev" }
            (fun s => if s == "5s" then some 5000 else none)
            { delay := some (.istr "5s") })
          (fun s => if s == "5s" then some 5000 else none)
          { schedule := some (.sdate 1700000000000) })
      = false := by
  decide

/-- C9 (amended): whenever the incoming options object itself contains a
delay key, the normalized result has at most one of delay and schedule
non-null; when it does not, a schedule supplied directly in the new
options can survive alongside a delay carried by the stored defaults. -/
theorem delayKeyNormalizationExclusive (defaults : NOpts) (msFn : String → Option Int)
    (opts : RawOpts) (d : DInput) (hd : opts.delay = some d) :
    mutuallyExclusive (generateOptions defaults msFn opts) = true := by
  obtain ⟨oe, opr, od, os⟩ := opts
  simp only at hd
  subst hd
  cases d with
  | istr s =>
    cases hms : msFn s <;>
      simp [generateOptions, mutuallyExclusive, delaySet, schedSet, hms]
  | inull => simp [generateOptions, mutuallyExclusive, delaySet, schedSet]
  | iundefined => simp [generateOptions, mutuallyExclusive, delaySet, schedSet]
  | inum n => simp [generateOptions, mutuallyExclusive, delaySet, schedSet]
  | inan => simp [generateOptions, mutuallyExclusive, delaySet, schedSet]
  | idate t => simp [generateOptions, mutuallyExclusive, delaySet, schedSet]
  | iinvalid => simp [generateOptions, mutuallyExclusive, delaySet, schedSet]

/-- C9 (witness for the amended theorem): options carrying a numeric
delay key normalize exclusively even over defaults carrying a delay and
alongside a directly passed schedule. -/
theorem delayKeyNormalizationExclusiveWitness :
    mutuallyExclusive
        (generateOptions { event := "ev", delay := some (.dnum 9) } (fun _ => none)
          { delay := some (.inum 7), schedule := some (.sdate 5) })
      = true :=
  delayKeyNormalizationExclusive { event := "ev", delay := some (.dnum 9) } (fun _ => none)
    { delay := some (.inum 7), schedule := some (.sdate 5) } (.inum 7) rfl

/-- C10: when the resolved priority is exactly 0, `_send` neither fails
on priority validation nor attaches a priority to the message: the
truthiness guard skips both, so the whole observable outcome (result,
envelope, pool activity, broker interactions, warning) is identical to a
send with no priority at all. -/
theorem priorityZeroActsAsAbsent (exchange appId messageId : String) (now : Int) (p : NOpts)
    (dataSer : Option String) (ao ro : Option String) (lt : Bool) :
    sendCore exchange appId messageId now { p with priority := some 0 } dataSer ao ro lt
        = sendCore exchange appId messageId now { p with priority := none } dataSer ao ro lt ∧
      (sendCore exchange appId messageId now { p with priority := some 0 } dataSer ao ro
          lt).result ≠ .error .invalidPriority := by
  obtain ⟨ev, pr, de, sc⟩ := p
  have heq : sendCore exchange appId messageId now ⟨ev, some 0, de, sc⟩ dataSer ao ro lt
      = sendCore exchange appId messageId now ⟨ev, none, de, sc⟩ dataSer ao ro lt := rfl
  refine ⟨heq, ?_⟩
  rw [heq]
  have hres : (sendCore exchange appId messageId now ⟨ev, none, de, sc⟩ dataSer ao ro
        lt).result
      = (sendRest exchange appId messageId now ⟨ev, none, de, sc⟩ (dataSer.getD "null") ao ro
          lt).1 := by
    simp [sendCore, prioThrows]
  rw [hres]
  exact sendRest_no_priority_err exchange appId messageId now ⟨ev, none, de, sc⟩
    (dataSer.getD "null") ao ro lt
